import Mathlib

/-!
Verification of the eERC SDK core against its specification.

The embedding follows the TypeScript sources:
* `src/EERC.ts` — the operation engine (register, privateMint, transfer,
  withdraw, privateBurn), balance reconstruction and PCT decryption;
* `src/utils` constants — field size, registration message, burn user;
* the metadata codec (`str2int` / `int2str`) from the helpers module.

The cryptographic primitives (`crypto/babyjub.ts`, `crypto/poseidon.ts`,
`crypto/ff.ts`, `crypto/key.ts`) are imported by `EERC.ts` as black boxes and
are not part of the engine sources; the embedding abstracts them as a record
of functions (`CryptoOps`), with the randomness they sample folded into their
outputs.  Every theorem about the engine is quantified over that record.
JavaScript `bigint` values are modelled as `ℤ`, JavaScript strings carrying
UTF-8 text as `String` or, for the byte-level codec, as lists of byte values.
-/

namespace EercSdk

/-- `SNARK_FIELD_SIZE` from the constants module: the BN254 scalar prime. -/
def SNARK_FIELD_SIZE : ℕ :=
  21888242871839275222246405745257275088548364400416034343698204186575808495617

/-- `SUB_GROUP_ORDER` from the constants module. -/
def SUB_GROUP_ORDER : ℕ :=
  2736030358979909402780800718157159386076813972158567259200215660948447373041

/-! ## Metadata codec (`str2int` / `int2str`)

A UTF-8 string is modelled by its byte list (each entry `< 256`); the
`Buffer.from(s, "utf8")` / `buf.toString("utf8")` conversions of the source
are the identity in this model, and removing the character `U+0000` from a
valid UTF-8 string is exactly removing the byte `0` from its byte list. -/

/-- `2 ** 250`, the chunk size of `splitIntoBigIntChunks`. -/
def chunkSize : ℕ := 2 ^ 250

/-- Fuel-indexed translation of the loop
`while (remaining > 0) { chunks.push(remaining % chunkSize); remaining /= chunkSize }`;
the fuel bounds the number of iterations and is instantiated with the start
value, which always suffices since each step at least halves the remainder. -/
def digitLoop (c : ℕ) : ℕ → ℕ → List ℕ
  | 0, _ => []
  | fuel + 1, n => if n = 0 then [] else n % c :: digitLoop c fuel (n / c)

/-- `splitIntoBigIntChunks`: base-`2^250` little-endian chunks; `0 ↦ [0]`. -/
def splitIntoBigIntChunks (n : ℕ) : List ℕ :=
  if n = 0 then [0] else digitLoop chunkSize n n

/-- `combineFromBigIntChunks`: the loop
`for (i = length-1; i >= 0; i--) result = result * chunkSize + chunks[i]`. -/
def combineFromBigIntChunks (chunks : List ℕ) : ℕ :=
  chunks.foldr (fun ch acc => acc * chunkSize + ch) 0

/-- `BigInt("0x" + buf.toString("hex"))`: the big-endian value of a byte list. -/
def bytesToNat (bytes : List ℕ) : ℕ :=
  bytes.foldl (fun acc b => acc * 256 + b) 0

/-- `decimal.toString(16)` padded to even length and read back as bytes:
the minimal big-endian byte list of `n` (empty for `n = 0`). -/
def natToBytes (n : ℕ) : List ℕ :=
  (digitLoop 256 n n).reverse

/-- `str2int` on the byte list of the string: `"" ↦ ([0], 1)`, otherwise the
chunk array of the big-endian byte value, together with its length. -/
def str2int (bytes : List ℕ) : List ℕ × ℕ :=
  if bytes = [] then ([0], 1)
  else
    let result := bytesToNat bytes
    let resultChunks := splitIntoBigIntChunks result
    (resultChunks, resultChunks.length)

/-- `int2str`: `[0] ↦ ""`; otherwise recombine the chunks, take the minimal
big-endian byte list and remove every `U+0000` (the source applies
`.replace(/\u0000/g, "")` to the decoded string). -/
def int2str (input : List ℕ) : List ℕ :=
  if input = [0] then []
  else
    let decimal := combineFromBigIntChunks input
    if decimal = 0 then []
    else (natToBytes decimal).filter (fun b => b ≠ 0)

/-! ## Data model

`Point` models both the `[x, y]` public-key arrays and the `{x, y}` contract
point records of the source; `EGCT` the ElGamal ciphertext pairs. -/

structure Point where
  x : ℤ
  y : ℤ
deriving DecidableEq

structure EGCT where
  c1 : Point
  c2 : Point
deriving DecidableEq

/-- Result of `curve.encryptMessage(pk, v)`: the ciphertext and the sampled
encryption random, as returned to the caller for the circuit witness. -/
structure ElGamalEncResult where
  cipher : EGCT
  random : ℤ
deriving DecidableEq

/-- Result of `poseidon.processPoseidonEncryption({inputs, publicKey})`. -/
structure PoseidonEncResult where
  cipher : List ℤ
  nonce : ℤ
  authKey : Point
  encryptionRandom : ℤ
deriving DecidableEq

/-- An element of the `amountPCTs` queue held by the contract; the engine reads only
its `pct` field. -/
structure AmountPCT where
  pct : List ℤ
deriving DecidableEq

/-- The EERC instance state that operations may mutate: `this.decryptionKey`
and `this.publicKey`. -/
structure EERCState where
  decryptionKey : String
  publicKey : Point
deriving DecidableEq

/-- The distinct failure exits of the engine, one per `throw` site. -/
inductive EERCError where
  | invalidAddress
  | invalidAmount
  | insufficientBalance
  | notAllowedForConverter
  | notAllowedForStandalone
  | auditorNotSet
  | receiverNotRegistered
  | failedToGenerateKey
  | proverError
  | rpcError
  | txError
deriving DecidableEq

/-- The cryptographic primitives `EERC.ts` imports from its `crypto` modules
(`babyjub`, `ff`, `key`, `poseidon`) plus the `isAddress` predicate of viem.  They are black
boxes to the engine; randomness sampled inside them is folded into their
outputs, so every engine theorem quantifies over this record. -/
structure CryptoOps where
  formatKeyForCurve : String → ℤ
  generatePublicKey : ℤ → Point
  getPrivateKeyFromSignature : String → String
  encryptMessage : Point → ℤ → ElGamalEncResult
  processPoseidonEncryption : List ℤ → Point → PoseidonEncResult
  processPoseidonDecryption : ℤ → List ℤ → List ℤ → ℤ → ℕ → List ℤ
  elGamalDecryption : ℤ → EGCT → Point
  mulWithScalar : Point → ℤ → Point
  Base8 : Point
  poseidon3 : List ℤ → ℤ
  poseidon5 : List ℤ → ℤ
  isAddress : String → Bool

/-- A zk proof as handed back by the prover; its contents are irrelevant to
the claims, only its identity matters. -/
abbrev ZkProof := String

/-- Witness dictionary of the REGISTER circuit (`EERC.ts`, `register`). -/
structure RegisterWitness where
  SenderPrivateKey : ℤ
  SenderPublicKey : Point
  SenderAddress : ℤ
  ChainID : ℤ
  RegistrationHash : ℤ
deriving DecidableEq

/-- Witness dictionary of the MINT circuit (`EERC.ts`, `privateMint`). -/
structure MintWitness where
  ValueToMint : ℤ
  ChainID : ℤ
  NullifierHash : ℤ
  ReceiverPublicKey : Point
  ReceiverVTTC1 : Point
  ReceiverVTTC2 : Point
  ReceiverVTTRandom : ℤ
  ReceiverPCT : List ℤ
  ReceiverPCTAuthKey : Point
  ReceiverPCTNonce : ℤ
  ReceiverPCTRandom : ℤ
  AuditorPublicKey : Point
  AuditorPCT : List ℤ
  AuditorPCTAuthKey : Point
  AuditorPCTNonce : ℤ
  AuditorPCTRandom : ℤ
deriving DecidableEq

/-- Witness dictionary of the TRANSFER circuit (`generateTransferProof`). -/
structure TransferWitness where
  ValueToTransfer : ℤ
  SenderPrivateKey : ℤ
  SenderPublicKey : Point
  SenderBalance : ℤ
  SenderBalanceC1 : List ℤ
  SenderBalanceC2 : List ℤ
  SenderVTTC1 : Point
  SenderVTTC2 : Point
  ReceiverPublicKey : Point
  ReceiverVTTC1 : Point
  ReceiverVTTC2 : Point
  ReceiverVTTRandom : ℤ
  ReceiverPCT : List ℤ
  ReceiverPCTAuthKey : Point
  ReceiverPCTNonce : ℤ
  ReceiverPCTRandom : ℤ
  AuditorPublicKey : Point
  AuditorPCT : List ℤ
  AuditorPCTAuthKey : Point
  AuditorPCTNonce : ℤ
  AuditorPCTRandom : ℤ
deriving DecidableEq

/-- Witness dictionary of the WITHDRAW circuit (`EERC.ts`, `withdraw`). -/
structure WithdrawWitness where
  ValueToWithdraw : ℤ
  SenderPrivateKey : ℤ
  SenderPublicKey : Point
  SenderBalance : ℤ
  SenderBalanceC1 : List ℤ
  SenderBalanceC2 : List ℤ
  AuditorPublicKey : Point
  AuditorPCT : List ℤ
  AuditorPCTAuthKey : Point
  AuditorPCTNonce : ℤ
  AuditorPCTRandom : ℤ
deriving DecidableEq

/-- Witness dictionary of the BURN circuit (`EERC.ts`, `privateBurn`). -/
structure BurnWitness where
  ValueToBurn : ℤ
  SenderPrivateKey : ℤ
  SenderPublicKey : Point
  SenderBalance : ℤ
  SenderBalanceC1 : List ℤ
  SenderBalanceC2 : List ℤ
  SenderVTBC1 : Point
  SenderVTBC2 : Point
  AuditorPublicKey : Point
  AuditorPCT : List ℤ
  AuditorPCTAuthKey : Point
  AuditorPCTNonce : ℤ
  AuditorPCTRandom : ℤ
deriving DecidableEq

/-- Arguments of the `privateMint` contract call (message-less branch; the
with-message branch passes the same recipient and proof plus the metadata). -/
structure MintCall where
  recipient : String
  proof : ZkProof
deriving DecidableEq

/-- Arguments of the `transfer` contract call. -/
structure TransferCall where
  toAddress : String
  tokenId : ℤ
  proof : ZkProof
  balancePCT : List ℤ
deriving DecidableEq

/-- Arguments of the `withdraw` contract call. -/
structure WithdrawCall where
  tokenId : ℤ
  proof : ZkProof
  balancePCT : List ℤ
deriving DecidableEq

/-- Arguments of the `privateBurn` contract call. -/
structure BurnCall where
  proof : ZkProof
  balancePCT : List ℤ
deriving DecidableEq

/-- The external world the engine awaits: wallet, RPC reads, prover and
transaction submission.  Each fallible step is an `Except`-valued field. -/
structure Oracles where
  walletAddress : String
  walletAddressField : ℤ
  signMessage : String → Except EERCError String
  getChainId : Except EERCError ℤ
  registrarPublicKey : String → Except EERCError Point
  tokenIds : String → Except EERCError ℤ
  proveRegister : RegisterWitness → Except EERCError ZkProof
  proveMint : MintWitness → Except EERCError ZkProof
  proveTransfer : TransferWitness → Except EERCError ZkProof
  proveWithdraw : WithdrawWitness → Except EERCError ZkProof
  proveBurn : BurnWitness → Except EERCError ZkProof
  writeRegister : ZkProof → Except EERCError String
  writeMint : MintCall → Except EERCError String
  writeTransfer : TransferCall → Except EERCError String
  writeWithdraw : WithdrawCall → Except EERCError String
  writeBurn : BurnCall → Except EERCError String

/-- `MESSAGES.REGISTER` from the constants module. -/
def MESSAGES_REGISTER (user : String) : String :=
  "eERC\nRegistering user with\n Address:" ++ user.toLower

/-- `BURN_USER.address` from the constants module. -/
def BURN_USER_address : String := "0x1111111111111111111111111111111111111111"

/-- `BURN_USER.publicKey` from the constants module. -/
def BURN_USER_publicKey : Point := ⟨0, 1⟩

/-- Result shape `{ key, transactionHash }` of `register`. -/
structure RegisterResult where
  key : String
  transactionHash : String
deriving DecidableEq

/-- Result shape `{ transactionHash }` of mint/withdraw/burn. -/
structure OperationResult where
  transactionHash : String
deriving DecidableEq

/-- Result of `generateTransferProof`. -/
structure TransferProofResult where
  proof : ZkProof
  senderBalancePCT : List ℤ
  receiverEncryptedAmount : List ℤ
  senderEncryptedAmount : List ℤ
deriving DecidableEq

/-- Result of `transfer`. -/
structure TransferResult where
  transactionHash : String
  receiverEncryptedAmount : List ℤ
  senderEncryptedAmount : List ℤ
deriving DecidableEq

/-- The 7-word on-wire form `[...cipher, ...authKey, nonce]` of a PCT. -/
def pctOut (e : PoseidonEncResult) : List ℤ :=
  e.cipher ++ [e.authKey.x, e.authKey.y, e.nonce]

/-! ## Engine operations (`EERC.ts`) -/

/-- `validateAddress`: throws `Invalid address!` unless viem accepts it. -/
def validateAddress (crypto : CryptoOps) (address : String) : Except EERCError Unit :=
  if crypto.isAddress address then .ok () else .error .invalidAddress

/-- `validateAmount` (EERC.ts line 111): `amount <= 0n` throws
`Invalid amount!`; then `senderBalance && amount > senderBalance` throws
`Insufficient balance!`.  JavaScript truthiness makes the second test skip
the balance check when `senderBalance` is `undefined` or `0n`. -/
def validateAmount (amount : ℤ) (senderBalance : Option ℤ) : Except EERCError Unit :=
  if amount ≤ 0 then .error .invalidAmount
  else
    match senderBalance with
    | none => .ok ()
    | some b => if b ≠ 0 ∧ amount > b then .error .insufficientBalance else .ok ()

/-- `fetchPublicKey`: the hard-coded burn-user key short-circuits the
registrar read. -/
def fetchPublicKey (oracles : Oracles) (toAddress : String) : Except EERCError Point :=
  if toAddress = BURN_USER_address then .ok BURN_USER_publicKey
  else oracles.registrarPublicKey toAddress

/-- `decryptPCT`: slice the 7-word pct into cipher/authKey/nonce, poseidon
decrypt with `length = 1` and take the first decrypted field. -/
def decryptPCT (crypto : CryptoOps) (s : EERCState) (pct : List ℤ) : ℤ :=
  let privateKey := crypto.formatKeyForCurve s.decryptionKey
  let cipher := pct.take 4
  let authKey := (pct.drop 4).take 2
  let nonce := pct.getD 6 0
  (crypto.processPoseidonDecryption privateKey authKey cipher nonce 1).getD 0 0

/-- `calculateTotalBalance` (EERC.ts line 872): add the decrypted balance
PCT (when some word of it is non-zero) and every decrypted amount PCT, then
cross-check the total against the ElGamal ciphertext and return `-1` when
they disagree. -/
def calculateTotalBalance (crypto : CryptoOps) (s : EERCState) (eGCT : EGCT)
    (amountPCTs : List AmountPCT) (balancePCT : List ℤ) : ℤ :=
  let privateKey := crypto.formatKeyForCurve s.decryptionKey
  let totalBalance : ℤ :=
    if balancePCT.any (fun e => e != 0) then decryptPCT crypto s balancePCT else 0
  let totalBalance :=
    amountPCTs.foldl (fun acc amountPCT => acc + decryptPCT crypto s amountPCT.pct) totalBalance
  if totalBalance ≠ 0 then
    let decryptedEGCT := crypto.elGamalDecryption privateKey eGCT
    let expectedPoint := crypto.mulWithScalar crypto.Base8 totalBalance
    if decryptedEGCT.x ≠ expectedPoint.x ∨ decryptedEGCT.y ≠ expectedPoint.y then -1
    else totalBalance
  else totalBalance

/-- `generateDecryptionKey`: sign the registration message, store the derived
key in `this.decryptionKey`, then store the public key; any failure is
reported as `Failed to generate decryption key!`. -/
def generateDecryptionKeyOp (crypto : CryptoOps) (oracles : Oracles) (s : EERCState) :
    Except EERCError String × EERCState :=
  match oracles.signMessage (MESSAGES_REGISTER oracles.walletAddress) with
  | .error _ => (.error .failedToGenerateKey, s)
  | .ok signature =>
    let key := crypto.getPrivateKeyFromSignature signature
    let s1 : EERCState := { s with decryptionKey := key }
    let formatted := crypto.formatKeyForCurve s1.decryptionKey
    let s2 : EERCState := { s1 with publicKey := crypto.generatePublicKey formatted }
    (.ok key, s2)

/-- Tail of `register` (EERC.ts lines 231-249): prove, submit, and on success
store the key and public key. -/
def registerProveAndSend (oracles : Oracles) (key : String) (publicKey : Point)
    (input : RegisterWitness) (s : EERCState) :
    Except EERCError RegisterResult × EERCState :=
  match oracles.proveRegister input with
  | .error e => (.error e, s)
  | .ok proof =>
    match oracles.writeRegister proof with
    | .error e => (.error e, s)
    | .ok transactionHash =>
      (.ok { key := key, transactionHash := transactionHash },
       { decryptionKey := key, publicKey := publicKey })

/-- `register` (EERC.ts line 180): derive the key (mutating the state), read
the registrar, short-circuit when already registered, otherwise build the
registration witness and prove-and-send. -/
def registerOp (crypto : CryptoOps) (oracles : Oracles) (s : EERCState) :
    Except EERCError RegisterResult × EERCState :=
  match generateDecryptionKeyOp crypto oracles s with
  | (.error e, s1) => (.error e, s1)
  | (.ok key, s1) =>
    let formatted := crypto.formatKeyForCurve key
    let publicKey := crypto.generatePublicKey formatted
    match fetchPublicKey oracles oracles.walletAddress with
    | .error e => (.error e, s1)
    | .ok contractPublicKey =>
      if contractPublicKey.x ≠ 0 ∧ contractPublicKey.y ≠ 0 then
        (.ok { key := key, transactionHash := "" },
         { decryptionKey := key, publicKey := publicKey })
      else
        match oracles.getChainId with
        | .error e => (.error e, s1)
        | .ok chainId =>
          let fullAddress := oracles.walletAddressField
          let registrationHash := crypto.poseidon3 [chainId, formatted, fullAddress]
          let input : RegisterWitness :=
            { SenderPrivateKey := formatted
              SenderPublicKey := publicKey
              SenderAddress := fullAddress
              ChainID := chainId
              RegistrationHash := registrationHash }
          registerProveAndSend oracles key publicKey input s1

/-- Witness assembly of `privateMint` (EERC.ts lines 281-328): ElGamal
ciphertext for the receiver, receiver and auditor PCTs of the mint amount,
and the nullifier `poseidon5([chainId, ...auditorCiphertext])`. -/
def privateMintWitness (crypto : CryptoOps) (chainId mintAmount : ℤ)
    (receiverPublicKey auditorPublicKey : Point) : MintWitness :=
  let encryptedAmount := crypto.encryptMessage receiverPublicKey mintAmount
  let receiver := crypto.processPoseidonEncryption [mintAmount] receiverPublicKey
  let auditor := crypto.processPoseidonEncryption [mintAmount] auditorPublicKey
  let nullifier := crypto.poseidon5 (chainId :: auditor.cipher)
  { ValueToMint := mintAmount
    ChainID := chainId
    NullifierHash := nullifier
    ReceiverPublicKey := receiverPublicKey
    ReceiverVTTC1 := encryptedAmount.cipher.c1
    ReceiverVTTC2 := encryptedAmount.cipher.c2
    ReceiverVTTRandom := encryptedAmount.random
    ReceiverPCT := receiver.cipher
    ReceiverPCTAuthKey := receiver.authKey
    ReceiverPCTNonce := receiver.nonce
    ReceiverPCTRandom := receiver.encryptionRandom
    AuditorPublicKey := auditorPublicKey
    AuditorPCT := auditor.cipher
    AuditorPCTAuthKey := auditor.authKey
    AuditorPCTNonce := auditor.nonce
    AuditorPCTRandom := auditor.encryptionRandom }

/-- `privateMint` without the state wrapper: mode and input checks, receiver
key fetch, witness assembly, prove, submit. -/
def privateMintCore (crypto : CryptoOps) (oracles : Oracles) (isConverter : Bool)
    (recipient : String) (mintAmount : ℤ) (auditorPublicKey : Point) :
    Except EERCError OperationResult :=
  if isConverter then .error .notAllowedForConverter
  else match validateAddress crypto recipient with
  | .error e => .error e
  | .ok _ =>
    match validateAmount mintAmount none with
    | .error e => .error e
    | .ok _ =>
      match fetchPublicKey oracles recipient with
      | .error e => .error e
      | .ok receiverPublicKey =>
        match oracles.getChainId with
        | .error e => .error e
        | .ok chainId =>
          let input := privateMintWitness crypto chainId mintAmount
            receiverPublicKey auditorPublicKey
          match oracles.proveMint input with
          | .error e => .error e
          | .ok proof =>
            match oracles.writeMint { recipient := recipient, proof := proof } with
            | .error e => .error e
            | .ok transactionHash => .ok { transactionHash := transactionHash }

/-- `privateMint` as a state transformer; the method contains no write to
`this.decryptionKey` or `this.publicKey`, so the state passes through. -/
def privateMintOp (crypto : CryptoOps) (oracles : Oracles) (isConverter : Bool)
    (recipient : String) (mintAmount : ℤ) (auditorPublicKey : Point) (s : EERCState) :
    Except EERCError OperationResult × EERCState :=
  (privateMintCore crypto oracles isConverter recipient mintAmount auditorPublicKey, s)

/-- `generateTransferProof` (EERC.ts line 680): auditor zero-key check,
input validation, receiver fetch and zero-key check, ElGamal and PCT
assembly, transfer witness, prove, and the three 7-word PCT outputs. -/
def generateTransferProofOp (crypto : CryptoOps) (oracles : Oracles) (s : EERCState)
    (toAddress : String) (amount : ℤ) (encryptedBalance : List ℤ) (decryptedBalance : ℤ)
    (auditorPublicKey : Point) : Except EERCError TransferProofResult :=
  if auditorPublicKey.x = 0 ∧ auditorPublicKey.y = 0 then .error .auditorNotSet
  else match validateAddress crypto toAddress with
  | .error e => .error e
  | .ok _ =>
    match validateAmount amount (some decryptedBalance) with
    | .error e => .error e
    | .ok _ =>
      let senderNewBalance := decryptedBalance - amount
      let privateKey := crypto.formatKeyForCurve s.decryptionKey
      match fetchPublicKey oracles toAddress with
      | .error e => .error e
      | .ok receiverPublicKey =>
        if receiverPublicKey.x = 0 ∧ receiverPublicKey.y = 0 then .error .receiverNotRegistered
        else
          let encryptedAmountSender := crypto.encryptMessage s.publicKey amount
          let encryptedAmountReceiver := crypto.encryptMessage receiverPublicKey amount
          let receiverPCT := crypto.processPoseidonEncryption [amount] receiverPublicKey
          let auditorPCT := crypto.processPoseidonEncryption [amount] auditorPublicKey
          let senderPCT := crypto.processPoseidonEncryption [senderNewBalance] s.publicKey
          let input : TransferWitness :=
            { ValueToTransfer := amount
              SenderPrivateKey := privateKey
              SenderPublicKey := s.publicKey
              SenderBalance := decryptedBalance
              SenderBalanceC1 := encryptedBalance.take 2
              SenderBalanceC2 := (encryptedBalance.drop 2).take 2
              SenderVTTC1 := encryptedAmountSender.cipher.c1
              SenderVTTC2 := encryptedAmountSender.cipher.c2
              ReceiverPublicKey := receiverPublicKey
              ReceiverVTTC1 := encryptedAmountReceiver.cipher.c1
              ReceiverVTTC2 := encryptedAmountReceiver.cipher.c2
              ReceiverVTTRandom := encryptedAmountReceiver.random
              ReceiverPCT := receiverPCT.cipher
              ReceiverPCTAuthKey := receiverPCT.authKey
              ReceiverPCTNonce := receiverPCT.nonce
              ReceiverPCTRandom := receiverPCT.encryptionRandom
              AuditorPublicKey := auditorPublicKey
              AuditorPCT := auditorPCT.cipher
              AuditorPCTAuthKey := auditorPCT.authKey
              AuditorPCTNonce := auditorPCT.nonce
              AuditorPCTRandom := auditorPCT.encryptionRandom }
          match oracles.proveTransfer input with
          | .error e => .error e
          | .ok proof =>
            let senderAmountPCT := crypto.processPoseidonEncryption [amount] s.publicKey
            .ok { proof := proof
                  senderBalancePCT := pctOut senderPCT
                  receiverEncryptedAmount := pctOut receiverPCT
                  senderEncryptedAmount := pctOut senderAmountPCT }

/-- `transfer` without the state wrapper: validations, unconditional receiver
fetch, optional token id, `generateTransferProof`, submission of the
sender balance PCT with the transaction. -/
def transferCore (crypto : CryptoOps) (oracles : Oracles) (s : EERCState)
    (toAddress : String) (amount : ℤ) (encryptedBalance : List ℤ) (decryptedBalance : ℤ)
    (auditorPublicKey : Point) (tokenAddress : Option String) :
    Except EERCError TransferResult :=
  match validateAddress crypto toAddress with
  | .error e => .error e
  | .ok _ =>
    match validateAmount amount (some decryptedBalance) with
    | .error e => .error e
    | .ok _ =>
      match fetchPublicKey oracles toAddress with
      | .error e => .error e
      | .ok _ =>
        match (match tokenAddress with
               | none => .ok 0
               | some ta => oracles.tokenIds ta : Except EERCError ℤ) with
        | .error e => .error e
        | .ok tokenId =>
          match generateTransferProofOp crypto oracles s toAddress amount
              encryptedBalance decryptedBalance auditorPublicKey with
          | .error e => .error e
          | .ok r =>
            match oracles.writeTransfer
                { toAddress := toAddress, tokenId := tokenId, proof := r.proof,
                  balancePCT := r.senderBalancePCT } with
            | .error e => .error e
            | .ok transactionHash =>
              .ok { transactionHash := transactionHash
                    receiverEncryptedAmount := r.receiverEncryptedAmount
                    senderEncryptedAmount := r.senderEncryptedAmount }

/-- `transfer` as a state transformer; the method never writes the state. -/
def transferOp (crypto : CryptoOps) (oracles : Oracles) (toAddress : String) (amount : ℤ)
    (encryptedBalance : List ℤ) (decryptedBalance : ℤ) (auditorPublicKey : Point)
    (tokenAddress : Option String) (s : EERCState) :
    Except EERCError TransferResult × EERCState :=
  (transferCore crypto oracles s toAddress amount encryptedBalance decryptedBalance
    auditorPublicKey tokenAddress, s)

/-- Witness assembly of `withdraw` (EERC.ts lines 603-639). -/
def withdrawWitnessOf (crypto : CryptoOps) (s : EERCState) (amount : ℤ)
    (encryptedBalance : List ℤ) (decryptedBalance : ℤ) (auditorPublicKey : Point) :
    WithdrawWitness :=
  let privateKey := crypto.formatKeyForCurve s.decryptionKey
  let auditorPCT := crypto.processPoseidonEncryption [amount] auditorPublicKey
  { ValueToWithdraw := amount
    SenderPrivateKey := privateKey
    SenderPublicKey := s.publicKey
    SenderBalance := decryptedBalance
    SenderBalanceC1 := encryptedBalance.take 2
    SenderBalanceC2 := (encryptedBalance.drop 2).take 2
    AuditorPublicKey := auditorPublicKey
    AuditorPCT := auditorPCT.cipher
    AuditorPCTAuthKey := auditorPCT.authKey
    AuditorPCTNonce := auditorPCT.nonce
    AuditorPCTRandom := auditorPCT.encryptionRandom }

/-- `withdraw` without the state wrapper: converter-mode gate, amount
validation, token id, sender PCT of the new balance, auditor PCT of the
amount, prove, and submission of the new balance PCT. -/
def withdrawCore (crypto : CryptoOps) (oracles : Oracles) (isConverter : Bool)
    (s : EERCState) (amount : ℤ) (encryptedBalance : List ℤ) (decryptedBalance : ℤ)
    (auditorPublicKey : Point) (tokenAddress : String) :
    Except EERCError OperationResult :=
  if ¬isConverter then .error .notAllowedForStandalone
  else match validateAmount amount (some decryptedBalance) with
  | .error e => .error e
  | .ok _ =>
    match oracles.tokenIds tokenAddress with
    | .error e => .error e
    | .ok tokenId =>
      let newBalance := decryptedBalance - amount
      let senderPCT := crypto.processPoseidonEncryption [newBalance] s.publicKey
      let input := withdrawWitnessOf crypto s amount encryptedBalance
        decryptedBalance auditorPublicKey
      match oracles.proveWithdraw input with
      | .error e => .error e
      | .ok proof =>
        match oracles.writeWithdraw
            { tokenId := tokenId, proof := proof, balancePCT := pctOut senderPCT } with
        | .error e => .error e
        | .ok transactionHash => .ok { transactionHash := transactionHash }

/-- `withdraw` as a state transformer; the method never writes the state. -/
def withdrawOp (crypto : CryptoOps) (oracles : Oracles) (isConverter : Bool)
    (amount : ℤ) (encryptedBalance : List ℤ) (decryptedBalance : ℤ)
    (auditorPublicKey : Point) (tokenAddress : String) (s : EERCState) :
    Except EERCError OperationResult × EERCState :=
  (withdrawCore crypto oracles isConverter s amount encryptedBalance decryptedBalance
    auditorPublicKey tokenAddress, s)

/-- Witness assembly of `privateBurn` (EERC.ts lines 373-417). -/
def privateBurnWitnessOf (crypto : CryptoOps) (s : EERCState) (amount : ℤ)
    (encryptedBalance : List ℤ) (decryptedBalance : ℤ) (auditorPublicKey : Point) :
    BurnWitness :=
  let privateKey := crypto.formatKeyForCurve s.decryptionKey
  let encryptedAmount := crypto.encryptMessage s.publicKey amount
  let auditorPCT := crypto.processPoseidonEncryption [amount] auditorPublicKey
  { ValueToBurn := amount
    SenderPrivateKey := privateKey
    SenderPublicKey := s.publicKey
    SenderBalance := decryptedBalance
    SenderBalanceC1 := encryptedBalance.take 2
    SenderBalanceC2 := (encryptedBalance.drop 2).take 2
    SenderVTBC1 := encryptedAmount.cipher.c1
    SenderVTBC2 := encryptedAmount.cipher.c2
    AuditorPublicKey := auditorPublicKey
    AuditorPCT := auditorPCT.cipher
    AuditorPCTAuthKey := auditorPCT.authKey
    AuditorPCTNonce := auditorPCT.nonce
    AuditorPCTRandom := auditorPCT.encryptionRandom }

/-- `privateBurn` without the state wrapper: standalone-mode gate, amount
validation, burn witness, user PCT of the new balance, prove, submit. -/
def privateBurnCore (crypto : CryptoOps) (oracles : Oracles) (isConverter : Bool)
    (s : EERCState) (amount : ℤ) (encryptedBalance : List ℤ) (decryptedBalance : ℤ)
    (auditorPublicKey : Point) : Except EERCError OperationResult :=
  if isConverter then .error .notAllowedForConverter
  else match validateAmount amount (some decryptedBalance) with
  | .error e => .error e
  | .ok _ =>
    let senderNewBalance := decryptedBalance - amount
    let userPCT := crypto.processPoseidonEncryption [senderNewBalance] s.publicKey
    let input := privateBurnWitnessOf crypto s amount encryptedBalance
      decryptedBalance auditorPublicKey
    match oracles.proveBurn input with
    | .error e => .error e
    | .ok proof =>
      match oracles.writeBurn { proof := proof, balancePCT := pctOut userPCT } with
      | .error e => .error e
      | .ok transactionHash => .ok { transactionHash := transactionHash }

/-- `privateBurn` as a state transformer; the method never writes the state. -/
def privateBurnOp (crypto : CryptoOps) (oracles : Oracles) (isConverter : Bool)
    (amount : ℤ) (encryptedBalance : List ℤ) (decryptedBalance : ℤ)
    (auditorPublicKey : Point) (s : EERCState) :
    Except EERCError OperationResult × EERCState :=
  (privateBurnCore crypto oracles isConverter s amount encryptedBalance decryptedBalance
    auditorPublicKey, s)

/-! ## Baby Jubjub addition (spec model)

Modelled from the spec: the curve module (`src/crypto/babyjub.ts`) is not
among the engine sources; §4.B of the specification fixes the twisted
Edwards parameters `a = 168700`, `d = 168696` over `F_p` and the complete
addition law, which is what the identity-point fact of C10 needs. -/

abbrev Fp := ZMod SNARK_FIELD_SIZE

def babyjubA : Fp := 168700

def babyjubD : Fp := 168696

/-- Modelled from the spec: the complete twisted Edwards addition law of
§4.B. -/
def babyjubAdd (p1 p2 : Fp × Fp) : Fp × Fp :=
  let x1 := p1.1
  let y1 := p1.2
  let x2 := p2.1
  let y2 := p2.2
  ((x1 * y2 + y1 * x2) * (1 + babyjubD * x1 * x2 * y1 * y2)⁻¹,
   (y1 * y2 - babyjubA * x1 * x2) * (1 - babyjubD * x1 * x2 * y1 * y2)⁻¹)

/-! ## Concrete instances used by witnesses and counterexamples -/

/-- A concrete crypto record for evaluating the engine on closed inputs. -/
def testCrypto : CryptoOps :=
  { formatKeyForCurve := fun k => (k.length : ℤ) + 1
    generatePublicKey := fun k => ⟨k, k + 1⟩
    getPrivateKeyFromSignature := fun sig => sig ++ "k"
    encryptMessage := fun pk v => ⟨⟨⟨v, 1⟩, pk⟩, 5⟩
    processPoseidonEncryption := fun inputs pk => ⟨[inputs.getD 0 0, pk.x, pk.y, 7], 11, ⟨3, 4⟩, 13⟩
    processPoseidonDecryption := fun _ _ cipher _ _ => cipher
    elGamalDecryption := fun _ e => e.c2
    mulWithScalar := fun p k => ⟨p.x * k, p.y * k⟩
    Base8 := ⟨5, 6⟩
    poseidon3 := fun l => l.sum + 3
    poseidon5 := fun l => l.sum + 5
    isAddress := fun _ => true }

/-- Oracles whose registrar answers the identity point `(0, 1)` and whose
prover and submission steps succeed. -/
def idRegistrarOracles : Oracles :=
  { walletAddress := "0xabc"
    walletAddressField := 2748
    signMessage := fun _ => .ok "sig"
    getChainId := .ok 43114
    registrarPublicKey := fun _ => .ok ⟨0, 1⟩
    tokenIds := fun _ => .ok 1
    proveRegister := fun _ => .ok "proofR"
    proveMint := fun _ => .ok "proofM"
    proveTransfer := fun _ => .ok "proofT"
    proveWithdraw := fun _ => .ok "proofW"
    proveBurn := fun _ => .ok "proofB"
    writeRegister := fun _ => .ok "0xtxr"
    writeMint := fun _ => .ok "0xtxm"
    writeTransfer := fun _ => .ok "0xtxt"
    writeWithdraw := fun _ => .ok "0xtxw"
    writeBurn := fun _ => .ok "0xtxb" }

/-- Oracles whose registrar answers the unset sentinel `(0, 0)`. -/
def zeroRegistrarOracles : Oracles :=
  { idRegistrarOracles with registrarPublicKey := fun _ => .ok ⟨0, 0⟩ }

/-- Oracles whose registrar answers a generic registered key `(9, 8)`. -/
def testOracles : Oracles :=
  { idRegistrarOracles with registrarPublicKey := fun _ => .ok ⟨9, 8⟩ }

/-- Oracles for which the register prover fails after a successful signature
and an unregistered registrar answer. -/
def failingProverOracles : Oracles :=
  { zeroRegistrarOracles with proveRegister := fun _ => .error .proverError }

/-- A fresh engine state: no decryption key, empty public key. -/
def freshState : EERCState := ⟨"", ⟨0, 0⟩⟩

/-! Helper lemmas relating the loop translations to `Nat.digits`/`Nat.ofDigits`. -/

theorem digitLoop_eq_digits {c : ℕ} (hc : 1 < c) :
    ∀ fuel n, n ≤ fuel → digitLoop c fuel n = Nat.digits c n := by
  intro fuel
  induction fuel with
  | zero =>
    intro n hn
    interval_cases n
    simp [digitLoop]
  | succ fuel ih =>
    intro n hn
    by_cases h0 : n = 0
    · simp [digitLoop, h0]
    · have hpos : 0 < n := Nat.pos_of_ne_zero h0
      have hdiv : n / c < n := Nat.div_lt_self hpos hc
      have : n / c ≤ fuel := by omega
      rw [digitLoop, if_neg h0, ih _ this, Nat.digits_def' hc hpos]

theorem combineFromBigIntChunks_eq_ofDigits (l : List ℕ) :
    combineFromBigIntChunks l = Nat.ofDigits chunkSize l := by
  induction l with
  | nil => rfl
  | cons d t ih =>
    simp only [combineFromBigIntChunks, List.foldr_cons, Nat.ofDigits_cons] at *
    rw [ih]
    ring

theorem bytesToNat_go (bytes : List ℕ) :
    ∀ acc, bytes.foldl (fun acc b => acc * 256 + b) acc
      = acc * 256 ^ bytes.length + Nat.ofDigits 256 bytes.reverse := by
  induction bytes with
  | nil => intro acc; simp
  | cons b t ih =>
    intro acc
    simp only [List.foldl_cons, List.reverse_cons, List.length_cons]
    rw [ih, Nat.ofDigits_append]
    simp only [Nat.ofDigits_cons, Nat.ofDigits_nil, List.length_reverse]
    ring

theorem bytesToNat_eq_ofDigits (bytes : List ℕ) :
    bytesToNat bytes = Nat.ofDigits 256 bytes.reverse := by
  simpa using bytesToNat_go bytes 0

theorem one_lt_chunkSize : 1 < chunkSize := by
  rw [chunkSize]
  exact Nat.one_lt_two_pow (by norm_num)

theorem bytesToNat_cons_zero (t : List ℕ) : bytesToNat (0 :: t) = bytesToNat t := by
  simp [bytesToNat]

/-- When the byte value is zero, every byte is zero. -/
theorem eq_zero_of_bytesToNat_eq_zero {bytes : List ℕ} (h : bytesToNat bytes = 0) :
    ∀ b ∈ bytes, b = 0 := by
  intro b hb
  have h' : Nat.ofDigits 256 bytes.reverse = 0 := by
    rw [← bytesToNat_eq_ofDigits]; exact h
  have := Nat.digits_zero_of_eq_zero (b := 256) (by norm_num) h' b
  exact this (List.mem_reverse.mpr hb)

/-- `natToBytes` recovers the byte list up to its leading zero bytes. -/
theorem natToBytes_bytesToNat (bytes : List ℕ) (hb : ∀ b ∈ bytes, b < 256) :
    natToBytes (bytesToNat bytes) = bytes.dropWhile (fun b => b == 0) := by
  induction bytes with
  | nil => simp [natToBytes, bytesToNat, digitLoop]
  | cons b t ih =>
    by_cases hzero : b = 0
    · subst hzero
      rw [bytesToNat_cons_zero]
      rw [ih fun x hx => hb x (List.mem_cons_of_mem _ hx)]
      simp [List.dropWhile]
    · have hlast : ∀ h : t.reverse ++ [b] ≠ [], (t.reverse ++ [b]).getLast h ≠ 0 := by
        intro h
        rw [List.getLast_append]
        exact hzero
      have hlt : ∀ l ∈ t.reverse ++ [b], l < 256 := by
        intro l hl
        rcases List.mem_append.mp hl with h | h
        · exact hb l (List.mem_cons_of_mem _ (List.mem_reverse.mp h))
        · simp only [List.mem_singleton] at h
          subst h; exact hb l (List.mem_cons_self _ _)
      have hdig : Nat.digits 256 (bytesToNat (b :: t)) = t.reverse ++ [b] := by
        rw [bytesToNat_eq_ofDigits, List.reverse_cons]
        exact Nat.digits_ofDigits 256 (by norm_num) _ hlt hlast
      have hne : bytesToNat (b :: t) ≠ 0 := by
        intro h
        exact hzero (eq_zero_of_bytesToNat_eq_zero h b (List.mem_cons_self _ _))
      have hbeq : (b == 0) = false := by simpa using hzero
      rw [natToBytes, digitLoop_eq_digits (by norm_num) _ _ le_rfl, hdig]
      simp [List.dropWhile, hbeq]

theorem splitIntoBigIntChunks_eq_digits {n : ℕ} (hn : n ≠ 0) :
    splitIntoBigIntChunks n = Nat.digits chunkSize n := by
  rw [splitIntoBigIntChunks, if_neg hn, digitLoop_eq_digits one_lt_chunkSize _ _ le_rfl]

/-- What decode-after-encode really computes: every `U+0000` byte is removed,
leading and interior ones included. -/
theorem int2str_str2int_eq_filter (bytes : List ℕ) (hb : ∀ b ∈ bytes, b < 256) :
    int2str (str2int bytes).1 = bytes.filter (fun b => b ≠ 0) := by
  by_cases hnil : bytes = []
  · subst hnil
    simp [str2int, int2str]
  · rw [str2int, if_neg hnil]
    dsimp only
    by_cases h0 : bytesToNat bytes = 0
    · have hall : ∀ b ∈ bytes, b = 0 := eq_zero_of_bytesToNat_eq_zero h0
      have hfil : bytes.filter (fun b => b ≠ 0) = [] := by
        rw [List.filter_eq_nil_iff]
        intro a ha
        simpa using hall a ha
      rw [splitIntoBigIntChunks, if_pos h0, hfil]
      simp [int2str]
    · rw [splitIntoBigIntChunks_eq_digits h0]
      have hne : Nat.digits chunkSize (bytesToNat bytes) ≠ [0] := by
        intro h
        have hofd := Nat.ofDigits_digits chunkSize (bytesToNat bytes)
        rw [h] at hofd
        simp [Nat.ofDigits] at hofd
        exact h0 hofd.symm
      have hcomb : combineFromBigIntChunks (Nat.digits chunkSize (bytesToNat bytes))
          = bytesToNat bytes := by
        rw [combineFromBigIntChunks_eq_ofDigits, Nat.ofDigits_digits]
      rw [int2str, if_neg hne]
      dsimp only
      rw [hcomb, if_neg h0, natToBytes_bytesToNat bytes hb]
      conv_rhs => rw [← List.takeWhile_append_dropWhile (p := fun b => b == 0) (l := bytes)]
      rw [List.filter_append]
      have htake : (bytes.takeWhile (fun b => b == 0)).filter (fun b => b ≠ 0) = [] := by
        rw [List.filter_eq_nil_iff]
        intro a ha
        have := List.mem_takeWhile_imp ha
        simpa using this
      rw [htake, List.nil_append]

/-- C2 (amended): on byte lists that contain no zero byte (no `U+0000`
character), decoding after encoding is the identity; in general every zero
byte is removed from the result; the empty string maps to the chunk array
`[0]` of length `1` and `[0]` maps back to the empty string. -/
theorem str2int_int2str_roundtrip (bytes : List ℕ)
    (hbyte : ∀ b ∈ bytes, b < 256)
    (_hbound : bytesToNat bytes < SNARK_FIELD_SIZE) :
    int2str (str2int bytes).1 = bytes.filter (fun b => b ≠ 0)
    ∧ ((∀ b ∈ bytes, b ≠ 0) → int2str (str2int bytes).1 = bytes)
    ∧ str2int [] = ([0], 1)
    ∧ int2str [0] = [] := by
  refine ⟨int2str_str2int_eq_filter bytes hbyte, ?_, rfl, rfl⟩
  intro hnz
  rw [int2str_str2int_eq_filter bytes hbyte, List.filter_eq_self]
  intro a ha
  simpa using hnz a ha

/-- C2 counterexample: the byte list of `"a\x00b"` (no trailing padding at
all) does not round-trip — the interior `U+0000` is dropped, so the result
is the byte list of `"ab"`. -/
theorem str2int_roundtrip_counterexample :
    int2str (str2int [97, 0, 98]).1 ≠ [97, 0, 98]
    ∧ int2str (str2int [97, 0, 98]).1 = [97, 98] := by
  constructor
  · decide
  · decide

/-- Witness for the amended C2 round-trip at the byte list of `"hi"`. -/
theorem str2int_int2str_roundtrip_witness :
    int2str (str2int [104, 105]).1 = [104, 105] :=
  (str2int_int2str_roundtrip [104, 105]
      (by intro b hb; simp only [List.mem_cons, List.not_mem_nil, or_false] at hb
          rcases hb with rfl | rfl <;> norm_num)
      (by decide)).2.1
    (by intro b hb; simp only [List.mem_cons, List.not_mem_nil, or_false] at hb
        rcases hb with rfl | rfl <;> norm_num)

/-! ## Engine lemmas and claim theorems -/

theorem point_ne_iff (P Q : Point) : P ≠ Q ↔ (P.x ≠ Q.x ∨ P.y ≠ Q.y) := by
  cases P
  cases Q
  simp only [ne_eq, Point.mk.injEq, not_and_or]

theorem foldl_add_eq (l : List AmountPCT) (f : AmountPCT → ℤ) :
    ∀ init : ℤ, l.foldl (fun acc a => acc + f a) init = init + (l.map f).sum := by
  induction l with
  | nil => intro init; simp
  | cons a t ih =>
    intro init
    simp only [List.foldl_cons, List.map_cons, List.sum_cons, ih]
    ring

/-- C1: `calculateTotalBalance` returns the first decrypted field of
`balancePCT` (added only when `balancePCT` is non-zero) plus the first
decrypted field of every element of `amountPCTs`; when that sum is non-zero
and the ElGamal decryption of `eGCT` under the holder key differs from the
sum mapped to the curve via `Base8`, it returns the sentinel `-1`, otherwise
the sum. -/
theorem calculateTotalBalance_spec (crypto : CryptoOps) (s : EERCState) (eGCT : EGCT)
    (amountPCTs : List AmountPCT) (balancePCT : List ℤ) :
    calculateTotalBalance crypto s eGCT amountPCTs balancePCT =
      (let total : ℤ :=
        (if ∃ e ∈ balancePCT, e ≠ 0 then decryptPCT crypto s balancePCT else 0)
        + (amountPCTs.map (fun a => decryptPCT crypto s a.pct)).sum
      if total ≠ 0 ∧
          crypto.elGamalDecryption (crypto.formatKeyForCurve s.decryptionKey) eGCT
            ≠ crypto.mulWithScalar crypto.Base8 total
      then -1 else total) := by
  have hany : ((balancePCT.any fun e => e != 0) = true) ↔ ∃ e ∈ balancePCT, e ≠ 0 := by
    simp [List.any_eq_true]
  simp only [calculateTotalBalance, foldl_add_eq, hany]
  set T : ℤ :=
    (if ∃ e ∈ balancePCT, e ≠ 0 then decryptPCT crypto s balancePCT else 0)
    + (amountPCTs.map (fun a => decryptPCT crypto s a.pct)).sum with hT
  by_cases h0 : T = 0
  · simp [h0]
  · by_cases hpq :
      crypto.elGamalDecryption (crypto.formatKeyForCurve s.decryptionKey) eGCT
        = crypto.mulWithScalar crypto.Base8 T
    · have hxy :
        ¬((crypto.elGamalDecryption (crypto.formatKeyForCurve s.decryptionKey) eGCT).x
            ≠ (crypto.mulWithScalar crypto.Base8 T).x ∨
          (crypto.elGamalDecryption (crypto.formatKeyForCurve s.decryptionKey) eGCT).y
            ≠ (crypto.mulWithScalar crypto.Base8 T).y) := by
        rw [hpq]
        simp
      simp [h0, hpq, hxy]
    · have hxy :
        (crypto.elGamalDecryption (crypto.formatKeyForCurve s.decryptionKey) eGCT).x
            ≠ (crypto.mulWithScalar crypto.Base8 T).x ∨
          (crypto.elGamalDecryption (crypto.formatKeyForCurve s.decryptionKey) eGCT).y
            ≠ (crypto.mulWithScalar crypto.Base8 T).y :=
        (point_ne_iff _ _).mp hpq
      simp [h0, hpq, hxy]

/-- C3 counterexample: with plaintext balance `0`, the amount `1 = bal + 1`
is accepted (JavaScript truthiness skips the balance check when the balance
is `0n`), while the claim demands rejection with `InvalidAmount`. -/
theorem validateAmount_counterexample :
    validateAmount 1 (some 0) = .ok () := rfl

/-- C3 (amended): for a supplied balance `bal ≥ 0`, `validateAmount` accepts
`v` exactly when `v > 0` and either `bal = 0` (the balance check is skipped
for a zero balance) or `v ≤ bal`; in particular `v = bal` is accepted and
`v = bal + 1` is rejected for every `bal ≥ 1`, but for `bal = 0` every
positive amount is accepted. -/
theorem validateAmount_ok_iff (v bal : ℤ) (hbal : 0 ≤ bal) :
    validateAmount v (some bal) = .ok () ↔ (0 < v ∧ (bal = 0 ∨ v ≤ bal)) := by
  simp only [validateAmount]
  split_ifs with h1 h2
  · simp only [reduceCtorEq, false_iff]
    omega
  · simp only [reduceCtorEq, false_iff]
    omega
  · simp only [true_iff]
    omega

/-- Witness for the amended C3 at `v = 3`, `bal = 5`. -/
theorem validateAmount_ok_iff_witness :
    validateAmount 3 (some 5) = .ok () :=
  (validateAmount_ok_iff 3 5 (by norm_num)).mpr ⟨by norm_num, Or.inr (by norm_num)⟩

/-- C4 (amended): `generateTransferProof` rejects with `AuditorNotSet`
exactly when the supplied auditor key is the zero pair `(0, 0)` (checked
first), and, for a non-zero auditor key and passing validations, rejects
with `UnregisteredParty` when the fetched receiver key is the zero pair
`(0, 0)`; the curve identity `(0, 1)` passes both checks. -/
theorem transfer_zero_key_checks (crypto : CryptoOps) (oracles : Oracles) (s : EERCState)
    (toAddress : String) (amount : ℤ) (encryptedBalance : List ℤ) (decryptedBalance : ℤ)
    (auditorPublicKey : Point) :
    (auditorPublicKey = ⟨0, 0⟩ →
      generateTransferProofOp crypto oracles s toAddress amount encryptedBalance
        decryptedBalance auditorPublicKey = .error .auditorNotSet)
    ∧ (auditorPublicKey ≠ ⟨0, 0⟩ →
       validateAddress crypto toAddress = .ok () →
       validateAmount amount (some decryptedBalance) = .ok () →
       fetchPublicKey oracles toAddress = .ok ⟨0, 0⟩ →
       generateTransferProofOp crypto oracles s toAddress amount encryptedBalance
         decryptedBalance auditorPublicKey = .error .receiverNotRegistered) := by
  constructor
  · intro h
    subst h
    simp [generateTransferProofOp]
  · intro hne ha hv hf
    have hcond : ¬(auditorPublicKey.x = 0 ∧ auditorPublicKey.y = 0) := by
      intro hxy
      apply hne
      cases auditorPublicKey
      simp_all
    rw [generateTransferProofOp, if_neg hcond, ha, hv, hf]
    simp

/-- C4 counterexample: with the auditor key equal to the curve identity
`(0, 1)` and the registrar returning the identity `(0, 1)` for the receiver,
the transfer proof generation succeeds instead of failing with
`AuditorNotSet` or `UnregisteredParty`. -/
theorem transfer_identity_keys_counterexample :
    (generateTransferProofOp testCrypto idRegistrarOracles freshState
      "0xdef" 1 [1, 2, 3, 4] 10 ⟨0, 1⟩).isOk = true := by
  rfl

/-- Witness for the amended C4: both zero-pair rejections at concrete
inputs. -/
theorem transfer_zero_key_checks_witness :
    generateTransferProofOp testCrypto zeroRegistrarOracles freshState
      "0xdef" 1 [1, 2, 3, 4] 10 ⟨0, 0⟩ = .error .auditorNotSet
    ∧ generateTransferProofOp testCrypto zeroRegistrarOracles freshState
      "0xdef" 1 [1, 2, 3, 4] 10 ⟨1, 2⟩ = .error .receiverNotRegistered :=
  ⟨(transfer_zero_key_checks testCrypto zeroRegistrarOracles freshState
      "0xdef" 1 [1, 2, 3, 4] 10 ⟨0, 0⟩).1 rfl,
   (transfer_zero_key_checks testCrypto zeroRegistrarOracles freshState
      "0xdef" 1 [1, 2, 3, 4] 10 ⟨1, 2⟩).2 (by decide) rfl rfl rfl⟩

/-- C5: in the `privateMint` witness, `NullifierHash` is `poseidon5` of the
chain id followed by the four auditor ciphertext words, and it is a function
of the chain id and the auditor ciphertext alone. -/
theorem privateMint_nullifier (crypto : CryptoOps) (chainId mintAmount : ℤ)
    (receiverPublicKey auditorPublicKey : Point) :
    ((privateMintWitness crypto chainId mintAmount receiverPublicKey
        auditorPublicKey).AuditorPCT
      = (crypto.processPoseidonEncryption [mintAmount] auditorPublicKey).cipher)
    ∧ (∀ c0 c1 c2 c3 : ℤ,
        (crypto.processPoseidonEncryption [mintAmount] auditorPublicKey).cipher
          = [c0, c1, c2, c3] →
        (privateMintWitness crypto chainId mintAmount receiverPublicKey
            auditorPublicKey).NullifierHash
          = crypto.poseidon5 [chainId, c0, c1, c2, c3])
    ∧ (∀ (mintAmount' : ℤ) (receiverPublicKey' auditorPublicKey' : Point),
        (crypto.processPoseidonEncryption [mintAmount'] auditorPublicKey').cipher
          = (crypto.processPoseidonEncryption [mintAmount] auditorPublicKey).cipher →
        (privateMintWitness crypto chainId mintAmount' receiverPublicKey'
            auditorPublicKey').NullifierHash
          = (privateMintWitness crypto chainId mintAmount receiverPublicKey
              auditorPublicKey).NullifierHash) := by
  refine ⟨rfl, ?_, ?_⟩
  · intro c0 c1 c2 c3 h
    simp [privateMintWitness, h]
  · intro mintAmount' receiverPublicKey' auditorPublicKey' h
    simp [privateMintWitness, h]

/-- Witness for C5 with the concrete crypto record at chain id 43114. -/
theorem privateMint_nullifier_witness :
    (privateMintWitness testCrypto 43114 7 ⟨3, 4⟩ ⟨1, 2⟩).NullifierHash
      = testCrypto.poseidon5 [43114, 7, 1, 2, 7] :=
  (privateMint_nullifier testCrypto 43114 7 ⟨3, 4⟩ ⟨1, 2⟩).2.1 7 1 2 7 rfl

/-- C6: in every sending operation the balance PCT submitted with the
transaction is the 7-word PCT encryption, under the sender public key, of
the post-operation balance `decryptedBalance - amount`: the transfer result
carries it as `senderBalancePCT`, and withdraw and burn hand it to the
transaction-submission oracle. -/
theorem balancePCT_encodes_new_balance (crypto : CryptoOps) (oracles : Oracles)
    (isConverter : Bool) (s : EERCState) (toAddress tokenAddress : String)
    (amount : ℤ) (encryptedBalance : List ℤ) (decryptedBalance : ℤ)
    (auditorPublicKey : Point) :
    (∀ r, generateTransferProofOp crypto oracles s toAddress amount encryptedBalance
        decryptedBalance auditorPublicKey = .ok r →
      r.senderBalancePCT
        = pctOut (crypto.processPoseidonEncryption [decryptedBalance - amount] s.publicKey))
    ∧ (∀ tokenId proof,
        isConverter = true →
        validateAmount amount (some decryptedBalance) = .ok () →
        oracles.tokenIds tokenAddress = .ok tokenId →
        oracles.proveWithdraw (withdrawWitnessOf crypto s amount encryptedBalance
          decryptedBalance auditorPublicKey) = .ok proof →
        withdrawCore crypto oracles isConverter s amount encryptedBalance decryptedBalance
            auditorPublicKey tokenAddress
          = (oracles.writeWithdraw
              { tokenId := tokenId, proof := proof,
                balancePCT := pctOut (crypto.processPoseidonEncryption
                  [decryptedBalance - amount] s.publicKey) }).map
              (fun tx => { transactionHash := tx }))
    ∧ (∀ proof,
        isConverter = false →
        validateAmount amount (some decryptedBalance) = .ok () →
        oracles.proveBurn (privateBurnWitnessOf crypto s amount encryptedBalance
          decryptedBalance auditorPublicKey) = .ok proof →
        privateBurnCore crypto oracles isConverter s amount encryptedBalance decryptedBalance
            auditorPublicKey
          = (oracles.writeBurn
              { proof := proof,
                balancePCT := pctOut (crypto.processPoseidonEncryption
                  [decryptedBalance - amount] s.publicKey) }).map
              (fun tx => { transactionHash := tx })) := by
  refine ⟨?_, ?_, ?_⟩
  · intro r h
    rw [generateTransferProofOp] at h
    split at h
    · simp at h
    · split at h
      · simp at h
      · split at h
        · simp at h
        · split at h
          · simp at h
          · split at h
            · simp at h
            · dsimp only at h
              split at h
              · simp at h
              · simp only [Except.ok.injEq] at h
                subst h
                rfl
  · intro tokenId proof hconv hval htid hprove
    subst hconv
    rw [withdrawCore, if_neg (by simp), hval, htid]
    dsimp only
    rw [hprove]
    cases hw : oracles.writeWithdraw
        { tokenId := tokenId, proof := proof,
          balancePCT := pctOut (crypto.processPoseidonEncryption
            [decryptedBalance - amount] s.publicKey) } <;>
      simp [Except.map, hw]
  · intro proof hconv hval hprove
    subst hconv
    rw [privateBurnCore, if_neg (by simp), hval]
    dsimp only
    rw [hprove]
    cases hw : oracles.writeBurn
        { proof := proof,
          balancePCT := pctOut (crypto.processPoseidonEncryption
            [decryptedBalance - amount] s.publicKey) } <;>
      simp [Except.map, hw]

/-- Witness for C6: all three sending operations at concrete inputs. -/
theorem balancePCT_encodes_new_balance_witness :
    ({ proof := "proofT", senderBalancePCT := [6, 0, 0, 7, 3, 4, 11],
       receiverEncryptedAmount := [4, 9, 8, 7, 3, 4, 11],
       senderEncryptedAmount := [4, 0, 0, 7, 3, 4, 11] : TransferProofResult }.senderBalancePCT
      = pctOut (testCrypto.processPoseidonEncryption [10 - 4] freshState.publicKey))
    ∧ (withdrawCore testCrypto testOracles true freshState 4 [1, 2, 3, 4] 10 ⟨1, 2⟩ "0xtok"
      = (testOracles.writeWithdraw
          { tokenId := 1, proof := "proofW",
            balancePCT := pctOut (testCrypto.processPoseidonEncryption
              [10 - 4] freshState.publicKey) }).map
          (fun tx => { transactionHash := tx }))
    ∧ (privateBurnCore testCrypto testOracles false freshState 4 [1, 2, 3, 4] 10 ⟨1, 2⟩
      = (testOracles.writeBurn
          { proof := "proofB",
            balancePCT := pctOut (testCrypto.processPoseidonEncryption
              [10 - 4] freshState.publicKey) }).map
          (fun tx => { transactionHash := tx })) :=
  ⟨(balancePCT_encodes_new_balance testCrypto testOracles true freshState "0xdef" "0xtok"
      4 [1, 2, 3, 4] 10 ⟨1, 2⟩).1
      { proof := "proofT", senderBalancePCT := [6, 0, 0, 7, 3, 4, 11],
        receiverEncryptedAmount := [4, 9, 8, 7, 3, 4, 11],
        senderEncryptedAmount := [4, 0, 0, 7, 3, 4, 11] } rfl,
   (balancePCT_encodes_new_balance testCrypto testOracles true freshState "0xdef" "0xtok"
      4 [1, 2, 3, 4] 10 ⟨1, 2⟩).2.1 1 "proofW" rfl rfl rfl rfl,
   (balancePCT_encodes_new_balance testCrypto testOracles false freshState "0xdef" "0xtok"
      4 [1, 2, 3, 4] 10 ⟨1, 2⟩).2.2 "proofB" rfl rfl rfl⟩

/-- C7: on the fresh-registration path (signature obtained, registrar answer
`(0, 0)`, chain id read), `register` proceeds to prove-and-send with exactly
the witness `{SenderPrivateKey, SenderPublicKey, SenderAddress, ChainID,
RegistrationHash = poseidon3 [chainId, sk, address]}`. -/
theorem register_witness_spec (crypto : CryptoOps) (oracles : Oracles) (s : EERCState)
    (sig : String) (chainId : ℤ)
    (hsig : oracles.signMessage (MESSAGES_REGISTER oracles.walletAddress) = .ok sig)
    (hpk : fetchPublicKey oracles oracles.walletAddress = .ok ⟨0, 0⟩)
    (hchain : oracles.getChainId = .ok chainId) :
    registerOp crypto oracles s
      = registerProveAndSend oracles (crypto.getPrivateKeyFromSignature sig)
          (crypto.generatePublicKey (crypto.formatKeyForCurve
            (crypto.getPrivateKeyFromSignature sig)))
          { SenderPrivateKey := crypto.formatKeyForCurve (crypto.getPrivateKeyFromSignature sig)
            SenderPublicKey := crypto.generatePublicKey (crypto.formatKeyForCurve
              (crypto.getPrivateKeyFromSignature sig))
            SenderAddress := oracles.walletAddressField
            ChainID := chainId
            RegistrationHash := crypto.poseidon3 [chainId,
              crypto.formatKeyForCurve (crypto.getPrivateKeyFromSignature sig),
              oracles.walletAddressField] }
          { decryptionKey := crypto.getPrivateKeyFromSignature sig,
            publicKey := crypto.generatePublicKey (crypto.formatKeyForCurve
              (crypto.getPrivateKeyFromSignature sig)) } := by
  rw [registerOp, generateDecryptionKeyOp, hsig]
  simp only []
  rw [hpk]
  simp only [if_neg (by simp : ¬((0 : ℤ) ≠ 0 ∧ (0 : ℤ) ≠ 0))]
  rw [hchain]

/-- Witness for C7 at the concrete crypto record and oracles. -/
theorem register_witness_spec_witness :
    registerOp testCrypto zeroRegistrarOracles freshState
      = registerProveAndSend zeroRegistrarOracles "sigk" ⟨5, 6⟩
          { SenderPrivateKey := 5, SenderPublicKey := ⟨5, 6⟩, SenderAddress := 2748,
            ChainID := 43114, RegistrationHash := testCrypto.poseidon3 [43114, 5, 2748] }
          { decryptionKey := "sigk", publicKey := ⟨5, 6⟩ } :=
  register_witness_spec testCrypto zeroRegistrarOracles freshState "sig" 43114 rfl rfl rfl

/-- C8: for every wallet address, the registration message is byte-for-byte
the literal `eERC`, newline, `Registering user with`, newline, ` Address:`
immediately followed by the lowercased address, with no other variation. -/
theorem registration_message_exact (user : String) :
    MESSAGES_REGISTER user
      = "eERC" ++ "\n" ++ "Registering user with" ++ "\n" ++ " Address:" ++ user.toLower
    ∧ (MESSAGES_REGISTER user).data
      = "eERC\nRegistering user with\n Address:".data ++ (user.toLower).data := by
  constructor
  · rfl
  · rfl

/-- `generateDecryptionKey` succeeds exactly on a successful signature, and
then stores the derived key and its public key. -/
theorem generateDecryptionKeyOp_ok {crypto : CryptoOps} {oracles : Oracles}
    {s : EERCState} {key : String} {s1 : EERCState}
    (h : generateDecryptionKeyOp crypto oracles s = (.ok key, s1)) :
    ∃ sig, oracles.signMessage (MESSAGES_REGISTER oracles.walletAddress) = .ok sig
      ∧ key = crypto.getPrivateKeyFromSignature sig
      ∧ s1 = { decryptionKey := key,
               publicKey := crypto.generatePublicKey (crypto.formatKeyForCurve key) } := by
  rw [generateDecryptionKeyOp] at h
  split at h
  · simp at h
  · rename_i sig hsig
    simp only [Prod.mk.injEq, Except.ok.injEq] at h
    obtain ⟨hkey, hs1⟩ := h
    exact ⟨sig, hsig, hkey.symm, by rw [← hs1, ← hkey]⟩

/-- C9 (amended): `privateMint`, `transfer`, `withdraw` and `privateBurn`
never write `decryptionKey` or `publicKey`; `generateDecryptionKey` leaves
the state unchanged when it fails; a failing `register` leaves the state
unchanged only when the signature step failed — when the failure comes
later, the freshly derived key and public key remain stored. -/
theorem state_mutation_on_failure (crypto : CryptoOps) (oracles : Oracles)
    (isConverter : Bool) (recipient toAddress tokenAddress : String)
    (amount : ℤ) (encryptedBalance : List ℤ) (decryptedBalance : ℤ)
    (auditorPublicKey : Point) (tokenAddressOpt : Option String) (s : EERCState) :
    (privateMintOp crypto oracles isConverter recipient amount auditorPublicKey s).2 = s
    ∧ (transferOp crypto oracles toAddress amount encryptedBalance decryptedBalance
        auditorPublicKey tokenAddressOpt s).2 = s
    ∧ (withdrawOp crypto oracles isConverter amount encryptedBalance decryptedBalance
        auditorPublicKey tokenAddress s).2 = s
    ∧ (privateBurnOp crypto oracles isConverter amount encryptedBalance decryptedBalance
        auditorPublicKey s).2 = s
    ∧ (∀ e s2, generateDecryptionKeyOp crypto oracles s = (.error e, s2) → s2 = s)
    ∧ (∀ e s2, registerOp crypto oracles s = (.error e, s2) →
        s2 = s ∨ ∃ sig,
          oracles.signMessage (MESSAGES_REGISTER oracles.walletAddress) = .ok sig
          ∧ s2 = { decryptionKey := crypto.getPrivateKeyFromSignature sig,
                   publicKey := crypto.generatePublicKey (crypto.formatKeyForCurve
                     (crypto.getPrivateKeyFromSignature sig)) }) := by
  refine ⟨rfl, rfl, rfl, rfl, ?_, ?_⟩
  · intro e s2 h
    rw [generateDecryptionKeyOp] at h
    split at h
    · simp only [Prod.mk.injEq] at h
      exact h.2.symm
    · simp at h
  · intro e s2 h
    rw [registerOp] at h
    split at h
    · rename_i e1 s1 heq
      rw [generateDecryptionKeyOp] at heq
      split at heq
      · simp only [Prod.mk.injEq] at heq h
        exact Or.inl (h.2.symm.trans heq.2.symm)
      · simp at heq
    · rename_i key s1 heq
      obtain ⟨sig, hsig, hkey, hs1⟩ := generateDecryptionKeyOp_ok heq
      subst hkey
      refine Or.inr ⟨sig, hsig, ?_⟩
      rw [← hs1]
      split at h
      · simp only [Prod.mk.injEq] at h
        exact h.2.symm
      · split at h
        · simp at h
        · split at h
          · simp only [Prod.mk.injEq] at h
            exact h.2.symm
          · rw [registerProveAndSend] at h
            split at h
            · simp only [Prod.mk.injEq] at h
              exact h.2.symm
            · split at h
              · simp only [Prod.mk.injEq] at h
                exact h.2.symm
              · simp at h

/-- C9 counterexample: a `register` that fails at the prover still stores
the newly derived decryption key and public key. -/
theorem register_mutation_counterexample :
    (registerOp testCrypto failingProverOracles freshState).1 = .error .proverError
    ∧ (registerOp testCrypto failingProverOracles freshState).2 ≠ freshState
    ∧ (registerOp testCrypto failingProverOracles freshState).2.decryptionKey = "sigk" := by
  refine ⟨rfl, ?_, rfl⟩
  decide

/-- Witness for the amended C9: the state-preservation clauses applied at a
failing signature oracle. -/
theorem state_mutation_on_failure_witness :
    (privateMintOp testCrypto testOracles false "0xdef" 7 ⟨1, 2⟩ freshState).2 = freshState
    ∧ (generateDecryptionKeyOp testCrypto
        { testOracles with signMessage := fun _ => .error .rpcError } freshState).2
      = freshState :=
  ⟨(state_mutation_on_failure testCrypto testOracles false "0xdef" "0xdef" "0xtok"
      7 [1, 2, 3, 4] 10 ⟨1, 2⟩ none freshState).1,
   (state_mutation_on_failure testCrypto
      { testOracles with signMessage := fun _ => .error .rpcError } false "0xdef" "0xdef"
      "0xtok" 7 [1, 2, 3, 4] 10 ⟨1, 2⟩ none freshState).2.2.2.2.1 .failedToGenerateKey
      (generateDecryptionKeyOp testCrypto
        { testOracles with signMessage := fun _ => .error .rpcError } freshState).2 rfl⟩

/-- C10: `fetchPublicKey` answers the hard-coded `(0, 1)` for the burn-user
address without consulting the registrar, delegates to the registrar for
every other address, the `(0, 0)` receiver-registration test passes on
`(0, 1)`, and `(0, 1)` is the identity of the (spec-modelled) Baby Jubjub
addition. -/
theorem fetchPublicKey_burn_user (oracles : Oracles) (toAddress : String)
    (hne : toAddress ≠ BURN_USER_address) :
    fetchPublicKey oracles BURN_USER_address = .ok BURN_USER_publicKey
    ∧ BURN_USER_publicKey = ⟨0, 1⟩
    ∧ fetchPublicKey oracles toAddress = oracles.registrarPublicKey toAddress
    ∧ ¬(BURN_USER_publicKey.x = 0 ∧ BURN_USER_publicKey.y = 0)
    ∧ (∀ P : Fp × Fp, babyjubAdd (0, 1) P = P ∧ babyjubAdd P (0, 1) = P) := by
  refine ⟨rfl, rfl, ?_, by simp [BURN_USER_publicKey], ?_⟩
  · rw [fetchPublicKey, if_neg hne]
  · intro P
    obtain ⟨x, y⟩ := P
    constructor <;> simp [babyjubAdd]

/-- Witness for C10 at a non-burn address. -/
theorem fetchPublicKey_burn_user_witness :
    fetchPublicKey testOracles "0xdef" = testOracles.registrarPublicKey "0xdef"
    ∧ fetchPublicKey testOracles BURN_USER_address = .ok BURN_USER_publicKey :=
  ⟨(fetchPublicKey_burn_user testOracles "0xdef" (by decide)).2.2.1,
   (fetchPublicKey_burn_user testOracles "0xdef" (by decide)).1⟩

end EercSdk
